import Mathlib

/-!
Shallow embedding of `src/jquery-html5-dnd.js`, a jQuery wrapper around the
HTML5 drag-and-drop API.  The closure-global mutable variables of the source
(`dragData`, `dragType`, `triggerDraggableEvents`, `cancelled`,
`scrollInterval`, `$scrollContainer`, plus the `data-dragging` attribute on
`document.body` and the queue of `setTimeout` callbacks) become the fields of
`DndState`.  Each jQuery event handler of the source becomes a pure function
from a state and the relevant DOM element to a new state together with a
record of its externally visible effects (emitted semantic events, calls to
`stopPropagation` / `preventDefault`, dataTransfer writes, class changes).
-/

/-- A JavaScript string-or-missing value: `getAttribute` yields `null` or a
string, and the uninitialised globals `dragData` / `dragType` are
`undefined`.  Lean equality of `JsStr` coincides with JS strict equality
`===` on these values (`null !== undefined`, strings compare by content). -/
inductive JsStr where
  | undef
  | null
  | str (s : String)
deriving DecidableEq

/-- JS truthiness for `JsStr`: `undefined`, `null` and `""` are falsy. -/
def JsStr.truthy : JsStr → Bool
  | JsStr.str s => s ≠ ""
  | _ => false

/-- JS `a || b` on `JsStr` values. -/
def jsOr (a b : JsStr) : JsStr :=
  if a.truthy then a else b

/-- JS string coercion, as performed by `setAttribute`. -/
def jsToString : JsStr → String
  | JsStr.undef => "undefined"
  | JsStr.null => "null"
  | JsStr.str s => s

-- Constants from the source (lines 100-108).
def DEFAULT_DRAG_NAMESPACE : String := "html5-draggable"
def DEFAULT_DROP_NAMESPACE : String := "html5-droppable"
def DRAGGABLE_SELECTOR : String := "[data-draggable]"
def DRAGGABLE_DRAGGING_CLASS : String := "draggable-dragging"
def DROPPABLE_SELECTOR : String := "[data-droppable]"
def DROPPABLE_HOVER_CLASS : String := "droppable-hover"
def DROPPABLE_EDGE_SELECTOR : String := "[data-droppable-edge]"
def GLOBAL_DRAGGING_ATTR : String := "data-dragging"
def SCROLL_INTERVAL : Nat := 50

/-- A DOM element as seen by the handlers: the data attributes the source
reads via `getAttribute` (each `null` when absent) and its class list. -/
structure Elem where
  dataDraggable : JsStr := JsStr.null
  dataDraggableType : JsStr := JsStr.null
  dataDraggableData : JsStr := JsStr.null
  dataDraggableTrigger : JsStr := JsStr.null
  dataDraggableImage : JsStr := JsStr.null
  dataDroppable : JsStr := JsStr.null
  dataDroppableType : JsStr := JsStr.null
  dataDroppableEdge : JsStr := JsStr.null
  dataDroppableEdgeContainer : JsStr := JsStr.null
  classes : List String := []
deriving DecidableEq

/-- `element.classList.add c` (no duplicate is added). -/
def classAdd (c : String) (e : Elem) : Elem :=
  if c ∈ e.classes then e else { e with classes := e.classes ++ [c] }

/-- `element.classList.remove c`. -/
def classRemove (c : String) (e : Elem) : Elem :=
  { e with classes := e.classes.filter (fun x => x ≠ c) }

/-- The two callbacks the source hands to `setTimeout(_, 1)`:
`setDraggingState` and `clearDraggingState` (lines 138-145). -/
inductive DeferredAct where
  | setDragging
  | clearDragging
deriving DecidableEq

/-- An interval timer created by `setInterval` in `onDroppableEdgeEnter`:
its identity (the value `setInterval` returned), the signed scroll delta the
closure captured, and its period in milliseconds. -/
structure Timer where
  id : Nat
  delta : Int
  period : Nat
deriving DecidableEq

/-- What `$scrollContainer` can point at: the `window` special case or the
elements matched by a selector string. -/
inductive ScrollTarget where
  | window
  | sel (s : String)
deriving DecidableEq

/-- The closure-global state of the source plus the observable document
state it drives: the `data-dragging` body attribute and the FIFO queue of
pending `setTimeout` callbacks. -/
structure DndState where
  dragData : JsStr := JsStr.undef
  dragType : JsStr := JsStr.undef
  triggerDraggableEvents : Bool := false
  cancelled : Bool := false
  bodyAttr : Option String := none
  pending : List DeferredAct := []
  timers : List Timer := []
  scrollRef : Option Nat := none
  nextTimerId : Nat := 0
  scrollContainer : Option ScrollTarget := none
deriving DecidableEq

/-- The state when the module loads. -/
def initState : DndState := {}

/-- Running one deferred callback: `setDraggingState` writes the current
`dragType` into the body attribute, `clearDraggingState` removes it. -/
def runDeferred (s : DndState) : DeferredAct → DndState
  | DeferredAct.setDragging => { s with bodyAttr := some (jsToString s.dragType) }
  | DeferredAct.clearDragging => { s with bodyAttr := none }

/-- Run every queued `setTimeout` callback, in FIFO order. -/
def flushPending (s : DndState) : DndState :=
  { s.pending.foldl runDeferred s with pending := [] }

/-- `target.getAttribute('data-draggable') || target.getAttribute('data-draggable-type')`
(line 154). -/
def resolveDragType (t : Elem) : JsStr :=
  jsOr t.dataDraggable t.dataDraggableType

/-- `target.getAttribute('data-draggable-data') || ''` (line 156). -/
def resolveDragData (t : Elem) : JsStr :=
  jsOr t.dataDraggableData (JsStr.str "")

/-- `target.getAttribute('data-droppable') || target.getAttribute('data-droppable-type')`
(line 225). -/
def resolveAcceptedType (t : Elem) : JsStr :=
  jsOr t.dataDroppable t.dataDroppableType

/-- Effects of `onDragStart`: the `dnd-start` event payload if one was
triggered, the dataTransfer writes, and the custom drag-image element id. -/
structure StartFx where
  dndStart : Option (JsStr × JsStr) := none
  effectAllowed : Option String := none
  dataTransferText : Option String := none
  dragImage : Option String := none
deriving DecidableEq

def emptyStartFx : StartFx := {}

structure StartResult where
  state : DndState
  target : Elem
  fx : StartFx
deriving DecidableEq

/-- Extract the payload of a string value. -/
def jsStrVal : JsStr → Option String
  | JsStr.str s => some s
  | _ => none

/-- `onDragStart` (lines 151-193).  Reads the declared type and payload,
bails out if no type resolves, otherwise stores the session, marks the
element, optionally emits `dnd-start`, fills the dataTransfer object, picks
the drag image when supported, and defers `setDraggingState` by one tick. -/
def onDragStart (s : DndState) (target : Elem) (imgSupported : Bool) : StartResult :=
  let ty := resolveDragType target
  let dat := resolveDragData target
  if ty.truthy = false then
    { state := s, target := target, fx := emptyStartFx }
  else
    { state :=
        { s with
          dragData := dat
          dragType := ty
          triggerDraggableEvents :=
            if target.dataDraggableTrigger = JsStr.str "true" then true
            else s.triggerDraggableEvents
          pending := s.pending ++ [DeferredAct.setDragging] }
      target := classAdd DRAGGABLE_DRAGGING_CLASS target
      fx :=
        { dndStart :=
            if target.dataDraggableTrigger = JsStr.str "true" then some (ty, dat) else none
          effectAllowed := some "move"
          dataTransferText := some "true"
          dragImage :=
            if imgSupported && (target.dataDraggableImage).truthy then
              jsStrVal target.dataDraggableImage
            else none } }

structure EndFx where
  dndEnd : Option (JsStr × JsStr) := none
deriving DecidableEq

structure EndResult where
  state : DndState
  target : Elem
  fx : EndFx
deriving DecidableEq

/-- `onDragEnd` (lines 196-214).  Removes the dragging class, emits
`dnd-end` and resets the trigger flag when custom events were enabled, and
defers `clearDraggingState` by one tick. -/
def onDragEnd (s : DndState) (target : Elem) : EndResult :=
  if s.triggerDraggableEvents then
    { state :=
        { s with
          triggerDraggableEvents := false
          pending := s.pending ++ [DeferredAct.clearDragging] }
      target := classRemove DRAGGABLE_DRAGGING_CLASS target
      fx := { dndEnd := some (s.dragType, s.dragData) } }
  else
    { state := { s with pending := s.pending ++ [DeferredAct.clearDragging] }
      target := classRemove DRAGGABLE_DRAGGING_CLASS target
      fx := { dndEnd := none } }

structure EnterFx where
  dropEffect : Option String := none
  stoppedPropagation : Bool := false
deriving DecidableEq

structure EnterResult where
  state : DndState
  target : Elem
  fx : EnterFx
deriving DecidableEq

/-- `onDragEnter` (lines 217-239).  Recomputes `cancelled` as
`acceptedType !== dragType`; when cancelled it returns at once, otherwise it
sets `dropEffect`, adds the hover class and stops propagation. -/
def onDragEnter (s : DndState) (target : Elem) : EnterResult :=
  if resolveAcceptedType target = s.dragType then
    { state := { s with cancelled := false }
      target := classAdd DROPPABLE_HOVER_CLASS target
      fx := { dropEffect := some "move", stoppedPropagation := true } }
  else
    { state := { s with cancelled := true }
      target := target
      fx := { dropEffect := none, stoppedPropagation := false } }

structure OverFx where
  preventedDefault : Bool := false
  returnedFalse : Bool := false
deriving DecidableEq

structure OverResult where
  state : DndState
  fx : OverFx
deriving DecidableEq

/-- `onDragOver` (lines 242-251).  When the session is not cancelled it
prevents the default action and returns `false`; it never touches state. -/
def onDragOver (s : DndState) : OverResult :=
  { state := s
    fx :=
      if s.cancelled then { preventedDefault := false, returnedFalse := false }
      else { preventedDefault := true, returnedFalse := true } }

structure LeaveResult where
  state : DndState
  target : Elem
deriving DecidableEq

/-- `onDragLeave` (lines 254-259).  Only removes the hover class. -/
def onDragLeave (s : DndState) (target : Elem) : LeaveResult :=
  { state := s, target := classRemove DROPPABLE_HOVER_CLASS target }

structure DropFx where
  stoppedPropagation : Bool := false
  preventedDefault : Bool := false
  dndDrop : JsStr × JsStr := (JsStr.undef, JsStr.undef)
deriving DecidableEq

structure DropResult where
  state : DndState
  target : Elem
  fx : DropFx
deriving DecidableEq

/-- `onDragDrop` (lines 262-282).  Unconditionally stops propagation,
prevents default, removes the hover class, emits `dnd-drop` carrying the
stored type and data, and defers `clearDraggingState` by one tick. -/
def onDragDrop (s : DndState) (target : Elem) : DropResult :=
  { state := { s with pending := s.pending ++ [DeferredAct.clearDragging] }
    target := classRemove DROPPABLE_HOVER_CLASS target
    fx :=
      { stoppedPropagation := true
        preventedDefault := true
        dndDrop := (s.dragType, s.dragData) } }

/-- The document-scoped `dnd-data-set` listener (lines 382-384). -/
def onDndDataSet (s : DndState) (ty dat : JsStr) : DndState :=
  if ty = s.dragType then { s with dragData := dat } else s

/-- `clearInterval(scrollInterval)`: removes the timer whose identity the
`scrollInterval` variable holds; a no-op when the variable is unset. -/
def clearIntervalOn (ts : List Timer) : Option Nat → List Timer
  | none => ts
  | some i => ts.filter (fun t => t.id ≠ i)

/-- The `selector === 'window' ? window : $(selector)` resolution of the
scroll container (lines 289-293). -/
def edgeTargetOf (c : String) : ScrollTarget :=
  if c = "window" then ScrollTarget.window else ScrollTarget.sel c

/-- `onDroppableEdgeEnter` (lines 285-309).  Reads the container selector
from the entered sentinel; when it is truthy, remembers the resolved
container; when the container matches existing elements (`resolves`),
clears any existing interval and starts a fresh one whose tick adds `-40`
for a `top` sentinel and `40` otherwise. -/
def onDroppableEdgeEnter (s : DndState) (edge : Elem) (resolves : ScrollTarget → Bool) : DndState :=
  match edge.dataDroppableEdgeContainer with
  | JsStr.str c =>
    if c = "" then s
    else
      let tgt := edgeTargetOf c
      let s1 := { s with scrollContainer := some tgt }
      if resolves tgt then
        let diff : Int := if edge.dataDroppableEdge = JsStr.str "top" then -40 else 40
        { s1 with
          timers := clearIntervalOn s1.timers s1.scrollRef ++
            [{ id := s1.nextTimerId, delta := diff, period := SCROLL_INTERVAL }]
          scrollRef := some s1.nextTimerId
          nextTimerId := s1.nextTimerId + 1 }
      else s1
  | _ => s

/-- `onDroppableEdgeLeave` (lines 312-315): clears the interval and nulls
the remembered container. -/
def onDroppableEdgeLeave (s : DndState) : DndState :=
  { s with
    timers := clearIntervalOn s.timers s.scrollRef
    scrollContainer := none }

/-- The combined effect of one tick of every active interval on the scroll
offset of the remembered container. -/
def tickAll (s : DndState) (x : Int) : Int :=
  s.timers.foldl (fun acc t => acc + t.delta) x

/-- A delegated listener registered through `$.on`, identified by its event
namespace, native event name and delegation selector. -/
structure Listener where
  ns : String
  event : String
  selector : String
deriving DecidableEq

/-- A root element the plugins are applied to: its two `$.data`
initialisation flags and its attached listeners. -/
structure Root where
  dragInit : Bool := false
  dropInit : Bool := false
  listeners : List Listener := []
deriving DecidableEq

/-- The argument of a plugin call: the string `'destroy'`, an options
object with a `selector`, or no argument. -/
inductive PluginArg where
  | destroy
  | withOptions (selector : String)
  | noArg
deriving DecidableEq

/-- `$.fn.html5Draggable` (lines 343-357) acting on one root element. -/
def html5Draggable (r : Root) (arg : PluginArg) : Root :=
  if arg = PluginArg.destroy then
    if r.dragInit then
      { r with
        listeners := r.listeners.filter (fun l => l.ns ≠ DEFAULT_DRAG_NAMESPACE)
        dragInit := false }
    else r
  else if r.dragInit then r
  else
    let sel := match arg with
      | PluginArg.withOptions s => s
      | _ => DRAGGABLE_SELECTOR
    { r with
      listeners := r.listeners ++
        [{ ns := DEFAULT_DRAG_NAMESPACE, event := "dragstart", selector := sel },
         { ns := DEFAULT_DRAG_NAMESPACE, event := "dragend", selector := sel }]
      dragInit := true }

/-- `$.fn.html5Droppable` (lines 360-374) acting on one root element. -/
def html5Droppable (r : Root) (arg : PluginArg) : Root :=
  if arg = PluginArg.destroy then
    if r.dropInit then
      { r with
        listeners := r.listeners.filter (fun l => l.ns ≠ DEFAULT_DROP_NAMESPACE)
        dropInit := false }
    else r
  else if r.dropInit then r
  else
    let sel := match arg with
      | PluginArg.withOptions s => s
      | _ => DROPPABLE_SELECTOR
    { r with
      listeners := r.listeners ++
        [{ ns := DEFAULT_DROP_NAMESPACE, event := "dragenter", selector := sel },
         { ns := DEFAULT_DROP_NAMESPACE, event := "dragover", selector := sel },
         { ns := DEFAULT_DROP_NAMESPACE, event := "dragleave", selector := sel },
         { ns := DEFAULT_DROP_NAMESPACE, event := "drop", selector := sel }]
      dropInit := true }


/-!
Trace semantics for the drag lifecycle.  An `Ev` is one delivery of a
native event to the relevant handler, one `dnd-data-set` trigger, or the
elapse of enough time for every queued `setTimeout` callback to run
(`flushEv`).
-/

inductive Ev where
  | startEv (target : Elem)
  | endEv (target : Elem)
  | enterEv (target : Elem)
  | overEv
  | leaveEv (target : Elem)
  | dropEv (target : Elem)
  | dataSetEv (ty dat : JsStr)
  | flushEv
deriving DecidableEq

/-- The state transition performed by one event. -/
def dndStep (s : DndState) : Ev → DndState
  | Ev.startEv t => (onDragStart s t true).state
  | Ev.endEv t => (onDragEnd s t).state
  | Ev.enterEv t => (onDragEnter s t).state
  | Ev.overEv => (onDragOver s).state
  | Ev.leaveEv t => (onDragLeave s t).state
  | Ev.dropEv t => (onDragDrop s t).state
  | Ev.dataSetEv ty dat => onDndDataSet s ty dat
  | Ev.flushEv => flushPending s

/-- The ghost lifecycle phase of the drag session, following the spec's
lifecycle: a session is created by a recognised `dragstart`, is read and
ended by `drop`, and `dragend` (which always fires, even after a drop)
returns the machine to `idle`.  `dropped` is the stretch between a `drop`
and the closing `dragend`, during which no live session remains. -/
inductive Phase where
  | idle
  | dragging
  | dropped
deriving DecidableEq

/-- Which events the native drag-and-drop model can deliver in each phase,
and the phase they lead to.  In `idle`, native drags of elements that
carry no resolvable type are still possible, so every droppable event may
fire without a session.  A new `dragstart` cannot occur while a gesture is
in flight. -/
def phaseStep (p : Phase) (e : Ev) : Option Phase :=
  match p, e with
  | Phase.idle, Ev.startEv t =>
    some (if (resolveDragType t).truthy then Phase.dragging else Phase.idle)
  | Phase.idle, _ => some Phase.idle
  | Phase.dragging, Ev.startEv _ => none
  | Phase.dragging, Ev.dropEv _ => some Phase.dropped
  | Phase.dragging, Ev.endEv _ => some Phase.idle
  | Phase.dragging, _ => some Phase.dragging
  | Phase.dropped, Ev.endEv _ => some Phase.idle
  | Phase.dropped, Ev.leaveEv _ => some Phase.dropped
  | Phase.dropped, Ev.dataSetEv _ _ => some Phase.dropped
  | Phase.dropped, Ev.flushEv => some Phase.dropped
  | Phase.dropped, _ => none

/-- Phase after a whole trace, starting idle; `none` when the trace is not
a possible native event sequence. -/
def phaseOf (tr : List Ev) : Option Phase :=
  tr.foldl (fun p? e => p?.bind (fun p => phaseStep p e)) (some Phase.idle)

/-- State after a whole trace, from the module-load state. -/
def runTrace (tr : List Ev) : DndState :=
  tr.foldl dndStep initState

/-- What one queued callback does to the body attribute, given the
`dragType` in force while the queue drains. -/
def attrStep (ty : JsStr) (_a : Option String) : DeferredAct → Option String
  | DeferredAct.setDragging => some (jsToString ty)
  | DeferredAct.clearDragging => none

/-- The body attribute after the whole queue drains. -/
def attrFold (l : List DeferredAct) (a : Option String) (ty : JsStr) : Option String :=
  l.foldl (attrStep ty) a

theorem runDeferred_only_bodyAttr (s : DndState) (a : DeferredAct) :
    runDeferred s a = { s with bodyAttr := attrStep s.dragType s.bodyAttr a } := by
  cases a <;> rfl

theorem foldl_runDeferred_eq (l : List DeferredAct) (s : DndState) :
    l.foldl runDeferred s = { s with bodyAttr := attrFold l s.bodyAttr s.dragType } := by
  induction l generalizing s with
  | nil => rfl
  | cons a l ih =>
    rw [List.foldl_cons, ih (runDeferred s a), runDeferred_only_bodyAttr]
    cases a <;> rfl

theorem flushPending_eq (s : DndState) :
    flushPending s =
      { s with bodyAttr := attrFold s.pending s.bodyAttr s.dragType, pending := [] } := by
  rw [flushPending, foldl_runDeferred_eq]

theorem attrFold_append_set (l : List DeferredAct) (a : Option String) (ty : JsStr) :
    attrFold (l ++ [DeferredAct.setDragging]) a ty = some (jsToString ty) := by
  simp [attrFold, List.foldl_append, attrStep]

theorem attrFold_append_clear (l : List DeferredAct) (a : Option String) (ty : JsStr) :
    attrFold (l ++ [DeferredAct.clearDragging]) a ty = none := by
  simp [attrFold, List.foldl_append, attrStep]

theorem onDragStart_falsy (s : DndState) (t : Elem) (b : Bool)
    (ht : (resolveDragType t).truthy = false) :
    onDragStart s t b = { state := s, target := t, fx := emptyStartFx } := by
  simp [onDragStart, ht]

theorem onDragStart_state_truthy (s : DndState) (t : Elem) (b : Bool)
    (ht : (resolveDragType t).truthy = true) :
    (onDragStart s t b).state =
      { s with
        dragData := resolveDragData t
        dragType := resolveDragType t
        triggerDraggableEvents :=
          if t.dataDraggableTrigger = JsStr.str "true" then true
          else s.triggerDraggableEvents
        pending := s.pending ++ [DeferredAct.setDragging] } := by
  simp [onDragStart, ht]

theorem onDragEnd_state (s : DndState) (t : Elem) :
    (onDragEnd s t).state =
      { s with
        triggerDraggableEvents := false
        pending := s.pending ++ [DeferredAct.clearDragging] } := by
  cases s with
  | mk dd dt trig canc attr pend tms ref nid sc => cases trig <;> rfl

theorem onDragEnter_fields (s : DndState) (t : Elem) :
    (onDragEnter s t).state.pending = s.pending ∧
      (onDragEnter s t).state.bodyAttr = s.bodyAttr ∧
      (onDragEnter s t).state.dragType = s.dragType := by
  by_cases h : resolveAcceptedType t = s.dragType <;> simp [onDragEnter, h]

theorem onDndDataSet_fields (s : DndState) (ty dat : JsStr) :
    (onDndDataSet s ty dat).pending = s.pending ∧
      (onDndDataSet s ty dat).bodyAttr = s.bodyAttr ∧
      (onDndDataSet s ty dat).dragType = s.dragType := by
  by_cases h : ty = s.dragType <;> simp [onDndDataSet, h]

/-- The invariant tying the pending-queue/attribute pair to the ghost
phase: once the queue drains, the attribute is absent outside `dragging`
and equal to the session type inside it. -/
def DragInv (p : Phase) (s : DndState) : Prop :=
  match p with
  | Phase.idle => attrFold s.pending s.bodyAttr s.dragType = none
  | Phase.dragging =>
    s.dragType.truthy = true ∧
      attrFold s.pending s.bodyAttr s.dragType = some (jsToString s.dragType)
  | Phase.dropped => attrFold s.pending s.bodyAttr s.dragType = none

theorem dragInv_congr (p : Phase) (s s' : DndState)
    (h1 : s'.pending = s.pending) (h2 : s'.bodyAttr = s.bodyAttr)
    (h3 : s'.dragType = s.dragType) (hi : DragInv p s) : DragInv p s' := by
  cases p <;> simp only [DragInv] at hi ⊢ <;> rw [h1, h2, h3] <;> exact hi

theorem dragInv_step (p p' : Phase) (e : Ev) (s : DndState)
    (hp : phaseStep p e = some p') (hi : DragInv p s) : DragInv p' (dndStep s e) := by
  cases e with
  | startEv t =>
    cases p with
    | idle =>
      by_cases ht : (resolveDragType t).truthy = true
      · have hp2 : p' = Phase.dragging := by
          simp only [phaseStep, ht, if_true, Option.some.injEq] at hp
          exact hp.symm
        subst hp2
        show DragInv Phase.dragging (onDragStart s t true).state
        rw [onDragStart_state_truthy s t true ht]
        exact ⟨ht, attrFold_append_set _ _ _⟩
      · simp only [Bool.not_eq_true] at ht
        have hp2 : p' = Phase.idle := by
          simp only [phaseStep, ht, if_false, Option.some.injEq] at hp
          exact hp.symm
        subst hp2
        show DragInv Phase.idle (onDragStart s t true).state
        rw [onDragStart_falsy s t true ht]
        exact hi
    | dragging => exact absurd hp (by simp [phaseStep])
    | dropped => exact absurd hp (by simp [phaseStep])
  | endEv t =>
    cases p with
    | idle =>
      simp only [phaseStep, Option.some.injEq] at hp
      subst hp
      show DragInv Phase.idle (onDragEnd s t).state
      rw [onDragEnd_state s t]
      exact attrFold_append_clear _ _ _
    | dragging =>
      simp only [phaseStep, Option.some.injEq] at hp
      subst hp
      show DragInv Phase.idle (onDragEnd s t).state
      rw [onDragEnd_state s t]
      exact attrFold_append_clear _ _ _
    | dropped =>
      simp only [phaseStep, Option.some.injEq] at hp
      subst hp
      show DragInv Phase.idle (onDragEnd s t).state
      rw [onDragEnd_state s t]
      exact attrFold_append_clear _ _ _
  | enterEv t =>
    cases p with
    | idle =>
      simp only [phaseStep, Option.some.injEq] at hp
      subst hp
      exact dragInv_congr _ s _ (onDragEnter_fields s t).1 (onDragEnter_fields s t).2.1
        (onDragEnter_fields s t).2.2 hi
    | dragging =>
      simp only [phaseStep, Option.some.injEq] at hp
      subst hp
      exact dragInv_congr _ s _ (onDragEnter_fields s t).1 (onDragEnter_fields s t).2.1
        (onDragEnter_fields s t).2.2 hi
    | dropped => exact absurd hp (by simp [phaseStep])
  | overEv =>
    cases p with
    | idle =>
      simp only [phaseStep, Option.some.injEq] at hp
      subst hp
      exact hi
    | dragging =>
      simp only [phaseStep, Option.some.injEq] at hp
      subst hp
      exact hi
    | dropped => exact absurd hp (by simp [phaseStep])
  | leaveEv t =>
    cases p with
    | idle =>
      simp only [phaseStep, Option.some.injEq] at hp
      subst hp
      exact hi
    | dragging =>
      simp only [phaseStep, Option.some.injEq] at hp
      subst hp
      exact hi
    | dropped =>
      simp only [phaseStep, Option.some.injEq] at hp
      subst hp
      exact hi
  | dropEv t =>
    cases p with
    | idle =>
      simp only [phaseStep, Option.some.injEq] at hp
      subst hp
      exact attrFold_append_clear _ _ _
    | dragging =>
      simp only [phaseStep, Option.some.injEq] at hp
      subst hp
      exact attrFold_append_clear _ _ _
    | dropped => exact absurd hp (by simp [phaseStep])
  | dataSetEv ty dat =>
    cases p with
    | idle =>
      simp only [phaseStep, Option.some.injEq] at hp
      subst hp
      exact dragInv_congr _ s _ (onDndDataSet_fields s ty dat).1
        (onDndDataSet_fields s ty dat).2.1 (onDndDataSet_fields s ty dat).2.2 hi
    | dragging =>
      simp only [phaseStep, Option.some.injEq] at hp
      subst hp
      exact dragInv_congr _ s _ (onDndDataSet_fields s ty dat).1
        (onDndDataSet_fields s ty dat).2.1 (onDndDataSet_fields s ty dat).2.2 hi
    | dropped =>
      simp only [phaseStep, Option.some.injEq] at hp
      subst hp
      exact dragInv_congr _ s _ (onDndDataSet_fields s ty dat).1
        (onDndDataSet_fields s ty dat).2.1 (onDndDataSet_fields s ty dat).2.2 hi
  | flushEv =>
    cases p with
    | idle =>
      simp only [phaseStep, Option.some.injEq] at hp
      subst hp
      show DragInv Phase.idle (flushPending s)
      rw [flushPending_eq]
      exact hi
    | dragging =>
      simp only [phaseStep, Option.some.injEq] at hp
      subst hp
      show DragInv Phase.dragging (flushPending s)
      rw [flushPending_eq]
      exact hi
    | dropped =>
      simp only [phaseStep, Option.some.injEq] at hp
      subst hp
      show DragInv Phase.dropped (flushPending s)
      rw [flushPending_eq]
      exact hi

theorem phaseFold_none (tr : List Ev) :
    tr.foldl (fun p? e => p?.bind (fun p => phaseStep p e)) none = none := by
  induction tr with
  | nil => rfl
  | cons e tr ih => exact ih

theorem dragInv_run (tr : List Ev) (p0 : Phase) (s : DndState) (q : Phase)
    (hp : tr.foldl (fun p? e => p?.bind (fun p => phaseStep p e)) (some p0) = some q)
    (hi : DragInv p0 s) : DragInv q (tr.foldl dndStep s) := by
  induction tr generalizing p0 s with
  | nil => cases hp; exact hi
  | cons e tr ih =>
    rw [List.foldl_cons] at hp
    cases h1 : phaseStep p0 e with
    | none =>
      have h2 : (some p0).bind (fun p => phaseStep p e) = none := h1
      rw [h2, phaseFold_none] at hp
      cases hp
    | some p1 =>
      have h2 : (some p0).bind (fun p => phaseStep p e) = some p1 := h1
      rw [h2] at hp
      exact ih p1 (dndStep s e) hp (dragInv_step p0 p1 e s h1 hi)

theorem dragInv_trace (tr : List Ev) (p : Phase) (hp : phaseOf tr = some p) :
    DragInv p (runTrace tr) := by
  have h0 : DragInv Phase.idle initState := by
    simp [DragInv, initState, attrFold]
  exact dragInv_run tr Phase.idle initState p hp h0

/-!
Claim theorems.  Sample states and elements used by the witnesses follow.
-/

/-- A state in which a session of type `card` with payload `42` is live. -/
def sessionCard : DndState :=
  { initState with dragType := JsStr.str "card", dragData := JsStr.str "42" }

/-- A droppable element accepting type `card`. -/
def cardTarget : Elem := { dataDroppable := JsStr.str "card" }

/-- A draggable element of type `card` with declared payload `42`. -/
def cardDraggable : Elem :=
  { dataDraggable := JsStr.str "card", dataDraggableData := JsStr.str "42" }

/-- C1: on every `dragenter` during a session of type `T`, the handler
assigns the cancelled flag afresh to whether the element's accepted type
(from `data-droppable` or `data-droppable-type`) differs from `T`; the
result never depends on the previous cancelled value; when cancelled it
does nothing else and does not stop propagation; when accepted it sets
`dropEffect` to `move`, adds the hover class and stops propagation. -/
theorem dragenter_type_gate (s : DndState) (T : String) (target : Elem)
    (hT : s.dragType = JsStr.str T) :
    ((onDragEnter s target).state.cancelled = true ↔
      resolveAcceptedType target ≠ JsStr.str T) ∧
    (∀ b : Bool, onDragEnter { s with cancelled := b } target = onDragEnter s target) ∧
    (resolveAcceptedType target = JsStr.str T →
      onDragEnter s target =
        { state := { s with cancelled := false }
          target := classAdd DROPPABLE_HOVER_CLASS target
          fx := { dropEffect := some "move", stoppedPropagation := true } }) ∧
    (resolveAcceptedType target ≠ JsStr.str T →
      onDragEnter s target =
        { state := { s with cancelled := true }
          target := target
          fx := { dropEffect := none, stoppedPropagation := false } }) := by
  refine ⟨?_, ?_, ?_, ?_⟩
  · by_cases h : resolveAcceptedType target = JsStr.str T <;> simp [onDragEnter, hT, h]
  · intro b
    by_cases h : resolveAcceptedType target = JsStr.str T <;> simp [onDragEnter, hT, h]
  · intro h
    simp [onDragEnter, hT, h]
  · intro h
    simp [onDragEnter, hT, h]

/-- Witness for C1 at a concrete accepting hover. -/
theorem dragenter_type_gate_witness :
    onDragEnter sessionCard cardTarget =
      { state := { sessionCard with cancelled := false }
        target := classAdd DROPPABLE_HOVER_CLASS cardTarget
        fx := { dropEffect := some "move", stoppedPropagation := true } } :=
  (dragenter_type_gate sessionCard "card" cardTarget rfl).2.2.1 (by decide)

/-- C2: a `dragstart` on an element whose resolved type is empty or absent
is a complete no-op (state, element and effects all unchanged), while a
non-empty resolved type opens a session with exactly the declared type and
payload (payload defaulting to the empty string) and, after the deferred
tick, the global dragging indicator equals that type. -/
theorem dragstart_gate (s : DndState) (target : Elem) (b : Bool) :
    ((resolveDragType target).truthy = false →
      onDragStart s target b = { state := s, target := target, fx := emptyStartFx }) ∧
    (∀ T : String, resolveDragType target = JsStr.str T → T ≠ "" →
      (onDragStart s target b).state.dragType = JsStr.str T ∧
      (onDragStart s target b).state.dragData = resolveDragData target ∧
      (target.dataDraggableData = JsStr.null →
        (onDragStart s target b).state.dragData = JsStr.str "") ∧
      (∀ d : String, target.dataDraggableData = JsStr.str d → d ≠ "" →
        (onDragStart s target b).state.dragData = JsStr.str d) ∧
      (flushPending (onDragStart s target b).state).bodyAttr = some T) := by
  constructor
  · intro ht
    exact onDragStart_falsy s target b ht
  · intro T hT hne
    have ht : (resolveDragType target).truthy = true := by
      rw [hT]
      simp [JsStr.truthy, hne]
    rw [onDragStart_state_truthy s target b ht]
    refine ⟨by rw [hT], rfl, ?_, ?_, ?_⟩
    · intro hdd
      simp [resolveDragData, hdd, jsOr, JsStr.truthy]
    · intro d hdd hdne
      simp [resolveDragData, hdd, jsOr, JsStr.truthy, hdne]
    · rw [flushPending_eq]
      show attrFold (s.pending ++ [DeferredAct.setDragging]) s.bodyAttr (resolveDragType target)
        = some T
      rw [attrFold_append_set, hT]
      rfl

/-- Witness for C2 at a concrete typed draggable. -/
theorem dragstart_gate_witness :
    (onDragStart initState cardDraggable false).state.dragType = JsStr.str "card" :=
  ((dragstart_gate initState cardDraggable false).2 "card" (by decide) (by decide)).1

/-- A live session used by the C3 counterexample. -/
def endedSession : DndState :=
  { initState with
    dragType := JsStr.str "card"
    dragData := JsStr.str "42"
    cancelled := true
    triggerDraggableEvents := true }

/-- Counterexample to C3 as stated: after `dragend` (even after the
deferred callbacks run) the store still holds the session type, payload
and cancellation flag, so the Session State Store does not end up holding
no session data. -/
theorem dragend_clears_all_refuted :
    (onDragEnd endedSession {}).state.dragType = JsStr.str "card" ∧
    (onDragEnd endedSession {}).state.dragData = JsStr.str "42" ∧
    (onDragEnd endedSession {}).state.cancelled = true ∧
    (flushPending (onDragEnd endedSession {}).state).dragType = JsStr.str "card" ∧
    (flushPending (onDragEnd endedSession {}).state).dragData = JsStr.str "42" := by
  decide

/-- C3 (amended): at `dragend` the handler resets only the custom-events
flag and schedules the clearing of the global dragging indicator; the
session type, payload and cancellation flag are not cleared and persist
past `dragend`; the effect on the store is idempotent (a second `dragend`
changes nothing in the store besides queueing another deferred clear). -/
theorem dragend_retains_store (s : DndState) (target : Elem) :
    (onDragEnd s target).state.dragType = s.dragType ∧
    (onDragEnd s target).state.dragData = s.dragData ∧
    (onDragEnd s target).state.cancelled = s.cancelled ∧
    (onDragEnd s target).state.triggerDraggableEvents = false ∧
    (onDragEnd s target).state.pending = s.pending ++ [DeferredAct.clearDragging] ∧
    (flushPending (onDragEnd s target).state).bodyAttr = none ∧
    (onDragEnd (onDragEnd s target).state target).state =
      { s with
        triggerDraggableEvents := false
        pending := s.pending ++ [DeferredAct.clearDragging, DeferredAct.clearDragging] } := by
  refine ⟨?_, ?_, ?_, ?_, ?_, ?_, ?_⟩
  · rw [onDragEnd_state]
  · rw [onDragEnd_state]
  · rw [onDragEnd_state]
  · rw [onDragEnd_state]
  · rw [onDragEnd_state]
  · rw [onDragEnd_state, flushPending_eq]
    exact attrFold_append_clear _ _ _
  · rw [onDragEnd_state, onDragEnd_state]
    simp

/-- C4: at every quiescent point of a possible trace (all deferred
callbacks have run), the document-root dragging attribute is present if
and only if a drag session is live, and while one is live its value is
the session's type.  Per the spec's lifecycle a session is created at a
recognised `dragstart` and ends at `drop` ("read, then session ends") or
at `dragend`, whichever comes first, so "a session is live" is the ghost
phase `dragging`. -/
theorem global_indicator_invariant (tr : List Ev) (p : Phase)
    (hp : phaseOf tr = some p) (hq : (runTrace tr).pending = []) :
    (((runTrace tr).bodyAttr).isSome = true ↔ p = Phase.dragging) ∧
    (p = Phase.dragging →
      (runTrace tr).bodyAttr = some (jsToString (runTrace tr).dragType) ∧
      ((runTrace tr).dragType).truthy = true) := by
  have hi := dragInv_trace tr p hp
  cases p with
  | idle =>
    simp only [DragInv, attrFold, hq, List.foldl_nil] at hi
    constructor
    · rw [hi]
      simp
    · intro h
      exact Phase.noConfusion h
  | dragging =>
    simp only [DragInv, attrFold, hq, List.foldl_nil] at hi
    obtain ⟨h1, h2⟩ := hi
    constructor
    · rw [h2]
      simp
    · intro _
      exact ⟨h2, h1⟩
  | dropped =>
    simp only [DragInv, attrFold, hq, List.foldl_nil] at hi
    constructor
    · rw [hi]
      simp
    · intro h
      exact Phase.noConfusion h

/-- A concrete trace: a `card` drag starts and the deferred tick runs. -/
def demoTrace : List Ev :=
  [Ev.startEv { dataDraggable := JsStr.str "card" }, Ev.flushEv]

/-- Witness for C4 on a concrete quiescent trace in the dragging phase. -/
theorem global_indicator_invariant_witness :
    (((runTrace demoTrace).bodyAttr).isSome = true ↔ Phase.dragging = Phase.dragging) ∧
    (Phase.dragging = Phase.dragging →
      (runTrace demoTrace).bodyAttr = some (jsToString (runTrace demoTrace).dragType) ∧
      ((runTrace demoTrace).dragType).truthy = true) :=
  global_indicator_invariant demoTrace Phase.dragging (by decide) (by decide)

/-- C5: a `dnd-data-set` trigger carrying `(type, payload)` replaces the
session payload exactly when `type` equals the live session's type and
changes nothing else; consequently a subsequent drop carries the
overridden payload for a matching override and the old payload for any
other. -/
theorem payload_override (s : DndState) (T : String) (hT : s.dragType = JsStr.str T)
    (ty dat : JsStr) (target : Elem) :
    (onDndDataSet s ty dat).dragData = (if ty = JsStr.str T then dat else s.dragData) ∧
    (onDndDataSet s ty dat).dragType = s.dragType ∧
    (onDndDataSet s ty dat).cancelled = s.cancelled ∧
    (onDndDataSet s ty dat).pending = s.pending ∧
    (onDndDataSet s ty dat).triggerDraggableEvents = s.triggerDraggableEvents ∧
    (onDragDrop (onDndDataSet s ty dat) target).fx.dndDrop =
      (JsStr.str T, if ty = JsStr.str T then dat else s.dragData) := by
  by_cases h : ty = JsStr.str T <;>
    simp [onDndDataSet, onDragDrop, hT, h]

/-- Witness for C5: a matching override changes the payload seen at drop. -/
theorem payload_override_witness :
    (onDragDrop (onDndDataSet sessionCard (JsStr.str "card") (JsStr.str "99")) {}).fx.dndDrop =
      (JsStr.str "card",
        if JsStr.str "card" = JsStr.str "card" then JsStr.str "99"
        else sessionCard.dragData) :=
  (payload_override sessionCard "card" rfl (JsStr.str "card") (JsStr.str "99") {}).2.2.2.2.2

theorem clearIntervalOn_of_inv (s : DndState)
    (hInv : ∀ t ∈ s.timers, s.scrollRef = some t.id) :
    clearIntervalOn s.timers s.scrollRef = [] := by
  cases href : s.scrollRef with
  | none =>
    cases htm : s.timers with
    | nil => rfl
    | cons t ts =>
      have hmem : t ∈ s.timers := by
        rw [htm]
        exact List.mem_cons_self t ts
      have h2 := hInv t hmem
      rw [href] at h2
      exact Option.noConfusion h2
  | some i =>
    show List.filter (fun t => t.id ≠ i) s.timers = []
    rw [List.filter_eq_nil_iff]
    intro t hmem
    have h2 := hInv t hmem
    rw [href] at h2
    injection h2 with h3
    simp [h3]

theorem onDroppableEdgeEnter_resolved (s : DndState) (edge : Elem)
    (resolves : ScrollTarget → Bool) (c : String)
    (hc : edge.dataDroppableEdgeContainer = JsStr.str c) (hne : c ≠ "")
    (hr : resolves (edgeTargetOf c) = true) :
    onDroppableEdgeEnter s edge resolves =
      { s with
        scrollContainer := some (edgeTargetOf c)
        timers := clearIntervalOn s.timers s.scrollRef ++
          [{ id := s.nextTimerId
             delta := if edge.dataDroppableEdge = JsStr.str "top" then (-40 : Int) else 40
             period := SCROLL_INTERVAL }]
        scrollRef := some s.nextTimerId
        nextTimerId := s.nextTimerId + 1 } := by
  simp [onDroppableEdgeEnter, hc, hne, hr]

theorem onDroppableEdgeEnter_unresolved (s : DndState) (edge : Elem)
    (resolves : ScrollTarget → Bool) (c : String)
    (hc : edge.dataDroppableEdgeContainer = JsStr.str c) (hne : c ≠ "")
    (hr : resolves (edgeTargetOf c) = false) :
    onDroppableEdgeEnter s edge resolves =
      { s with scrollContainer := some (edgeTargetOf c) } := by
  simp [onDroppableEdgeEnter, hc, hne, hr]

/-- C6: entering an edge sentinel whose configured container resolves
first cancels any existing interval and then starts exactly one fresh one
(so, given the invariant that every live timer is the one the
`scrollInterval` variable refers to, at most one timer is ever active);
each tick of the new timer moves the scroll offset by `-40` for a `top`
sentinel and by `+40` otherwise, at the fixed `SCROLL_INTERVAL` period;
leaving a sentinel cancels the timer and clears the remembered container;
a configured container that does not resolve starts no timer. -/
theorem edge_scroll_timer (s : DndState) (edge : Elem)
    (resolves : ScrollTarget → Bool) (c : String)
    (hInv : ∀ t ∈ s.timers, s.scrollRef = some t.id)
    (hc : edge.dataDroppableEdgeContainer = JsStr.str c) (hne : c ≠ "") :
    (resolves (edgeTargetOf c) = true →
      (onDroppableEdgeEnter s edge resolves).timers =
        [{ id := s.nextTimerId
           delta := if edge.dataDroppableEdge = JsStr.str "top" then (-40 : Int) else 40
           period := SCROLL_INTERVAL }] ∧
      (∀ x : Int, tickAll (onDroppableEdgeEnter s edge resolves) x =
        x + (if edge.dataDroppableEdge = JsStr.str "top" then (-40 : Int) else 40)) ∧
      (onDroppableEdgeEnter s edge resolves).scrollContainer = some (edgeTargetOf c) ∧
      (∀ t ∈ (onDroppableEdgeEnter s edge resolves).timers,
        (onDroppableEdgeEnter s edge resolves).scrollRef = some t.id)) ∧
    (resolves (edgeTargetOf c) = false →
      (onDroppableEdgeEnter s edge resolves).timers = s.timers ∧
      (onDroppableEdgeEnter s edge resolves).scrollRef = s.scrollRef) ∧
    ((onDroppableEdgeLeave s).timers = [] ∧
      (onDroppableEdgeLeave s).scrollContainer = none) := by
  have hclear := clearIntervalOn_of_inv s hInv
  refine ⟨?_, ?_, ?_, ?_⟩
  · intro hr
    rw [onDroppableEdgeEnter_resolved s edge resolves c hc hne hr]
    refine ⟨?_, ?_, rfl, ?_⟩
    · show clearIntervalOn s.timers s.scrollRef ++ _ = _
      rw [hclear]
      rfl
    · intro x
      show tickAll _ x = _
      simp [tickAll, hclear]
    · intro t hmem
      show some s.nextTimerId = some t.id
      simp only [hclear, List.nil_append, List.mem_singleton] at hmem
      rw [hmem]
  · intro hr
    rw [onDroppableEdgeEnter_unresolved s edge resolves c hc hne hr]
    exact ⟨rfl, rfl⟩
  · show clearIntervalOn s.timers s.scrollRef = []
    exact hclear
  · rfl

/-- A `top` edge sentinel configured to scroll the window. -/
def topEdgeWindow : Elem :=
  { dataDroppableEdge := JsStr.str "top"
    dataDroppableEdgeContainer := JsStr.str "window" }

/-- Witness for C6: from the initial state, entering a resolving `top`
sentinel leaves exactly one timer with delta `-40`. -/
theorem edge_scroll_timer_witness :
    (onDroppableEdgeEnter initState topEdgeWindow (fun _ => true)).timers =
      [{ id := initState.nextTimerId
         delta := if topEdgeWindow.dataDroppableEdge = JsStr.str "top" then (-40 : Int) else 40
         period := SCROLL_INTERVAL }] :=
  ((edge_scroll_timer initState topEdgeWindow (fun _ => true) "window"
    (by simp [initState]) (by decide) (by decide)).1 rfl).1

/-- C7: for each root element and each controller kind independently,
enabling when already enabled attaches no further listeners (calling the
plugin again is a no-op, so one native event keeps firing exactly one
delegated handler); destroy when not enabled is a no-op; enable followed
by destroy detaches exactly the listeners under that controller's private
namespace and marks the root not-enabled again; neither plugin touches
the other plugin's flag. -/
theorem facade_idempotence (r : Root) (sel : String)
    (hd : r.dragInit = false) (hq : r.dropInit = false) :
    (html5Draggable r (PluginArg.withOptions sel)).dragInit = true ∧
    html5Draggable (html5Draggable r (PluginArg.withOptions sel)) (PluginArg.withOptions sel) =
      html5Draggable r (PluginArg.withOptions sel) ∧
    html5Draggable (html5Draggable r (PluginArg.withOptions sel)) PluginArg.noArg =
      html5Draggable r (PluginArg.withOptions sel) ∧
    html5Draggable r PluginArg.destroy = r ∧
    html5Draggable (html5Draggable r (PluginArg.withOptions sel)) PluginArg.destroy =
      { r with
        listeners := r.listeners.filter (fun l => l.ns ≠ DEFAULT_DRAG_NAMESPACE)
        dragInit := false } ∧
    (html5Draggable r (PluginArg.withOptions sel)).dropInit = r.dropInit ∧
    (html5Droppable r (PluginArg.withOptions sel)).dropInit = true ∧
    html5Droppable (html5Droppable r (PluginArg.withOptions sel)) (PluginArg.withOptions sel) =
      html5Droppable r (PluginArg.withOptions sel) ∧
    html5Droppable (html5Droppable r (PluginArg.withOptions sel)) PluginArg.noArg =
      html5Droppable r (PluginArg.withOptions sel) ∧
    html5Droppable r PluginArg.destroy = r ∧
    html5Droppable (html5Droppable r (PluginArg.withOptions sel)) PluginArg.destroy =
      { r with
        listeners := r.listeners.filter (fun l => l.ns ≠ DEFAULT_DROP_NAMESPACE)
        dropInit := false } ∧
    (html5Droppable r (PluginArg.withOptions sel)).dragInit = r.dragInit := by
  refine ⟨?_, ?_, ?_, ?_, ?_, ?_, ?_, ?_, ?_, ?_, ?_, ?_⟩ <;>
    simp [html5Draggable, html5Droppable, hd, hq, List.filter_append]

/-- A root with no plugin enabled. -/
def freshRoot : Root := {}

/-- Witness for C7: enabling a second time is a no-op. -/
theorem facade_idempotence_witness :
    html5Draggable (html5Draggable freshRoot (PluginArg.withOptions "[data-draggable]"))
        (PluginArg.withOptions "[data-draggable]") =
      html5Draggable freshRoot (PluginArg.withOptions "[data-draggable]") :=
  (facade_idempotence freshRoot "[data-draggable]" rfl rfl).2.1

/-- C8: `dragover` never changes state and never emits a semantic event;
it prevents the default action and returns `false` exactly when the
session is not cancelled. -/
theorem dragover_no_sideeffects (s : DndState) :
    (onDragOver s).state = s ∧
    (onDragOver s).fx.preventedDefault = !s.cancelled ∧
    (onDragOver s).fx.returnedFalse = !s.cancelled := by
  refine ⟨rfl, ?_, ?_⟩ <;> cases h : s.cancelled <;> simp [onDragOver, h]

/-- C9: the drop handler performs no type or session check: for every
state it stops propagation, prevents default, removes the hover class,
queues the deferred indicator clear, and emits `dnd-drop` with whatever
type and payload the store holds — `undefined` ones included when no
session was ever opened. -/
theorem drop_unconditional (s : DndState) (target : Elem) :
    (onDragDrop s target).fx.stoppedPropagation = true ∧
    (onDragDrop s target).fx.preventedDefault = true ∧
    (onDragDrop s target).target = classRemove DROPPABLE_HOVER_CLASS target ∧
    (onDragDrop s target).fx.dndDrop = (s.dragType, s.dragData) ∧
    (onDragDrop s target).state = { s with pending := s.pending ++ [DeferredAct.clearDragging] } ∧
    (onDragDrop initState target).fx.dndDrop = (JsStr.undef, JsStr.undef) :=
  ⟨rfl, rfl, rfl, rfl, rfl, rfl⟩

/-- C10: the scroll-container attribute is read only from the entered
sentinel itself; a sentinel that does not declare a truthy
`data-droppable-edge-container` leaves the state untouched — no timer, no
remembered container — whatever `data-droppable-edge` position it
declares. -/
theorem edge_requires_own_container (s : DndState) (edge : Elem)
    (resolves : ScrollTarget → Bool)
    (h : (edge.dataDroppableEdgeContainer).truthy = false) :
    onDroppableEdgeEnter s edge resolves = s := by
  unfold onDroppableEdgeEnter
  cases hc : edge.dataDroppableEdgeContainer with
  | undef => rfl
  | null => rfl
  | str c =>
    rw [hc] at h
    have hce : c = "" := by
      simpa [JsStr.truthy] using h
    simp [hce]

/-- A `bottom` sentinel written per the documented convention: the
container attribute lives on the `top` sentinel only. -/
def bottomEdge : Elem := { dataDroppableEdge := JsStr.str "bottom" }

/-- Witness for C10: the conventional `bottom` sentinel never scrolls. -/
theorem edge_requires_own_container_witness :
    onDroppableEdgeEnter initState bottomEdge (fun _ => true) = initState :=
  edge_requires_own_container initState bottomEdge (fun _ => true) rfl
